import Mathlib

/-!
Verification of the fetch-filter-rank pipeline of the GitHub issue digest
script (`src/digest.py`).  The Python functions are shallowly embedded as
executable Lean definitions: list-valued JSON fields become `List String`,
the insertion-ordered `dict` accumulator becomes an association list with
in-place value replacement, the unbounded `while` pagination loop takes a
fuel parameter, and the HTTP endpoint is a parameter mapping a query string
and a page number to the page's items.  Python's `str.lower` and
`str.strip` are modelled for ASCII text (all strings the script compares
against are ASCII).
-/

namespace Digest

/-- One search result item, as consumed by the script: `html_url` is the
identity key, `labels` the list of label names (the script's `label_names`
reads `lbl.get("name","")`, so a missing name is the empty string and a
missing list is empty), `assignees` the list of assignee logins,
`updated_at` the raw timestamp string (`none` when the field is absent),
and `pull_request` whether the item carries the pull-request marker. -/
structure SearchResult where
  html_url : String
  title : String
  labels : List String
  assignees : List String
  updated_at : Option String
  pull_request : Bool
  deriving DecidableEq, Repr

/-- ASCII lower-casing of one character, as Python's `str.lower` acts on
the ASCII labels and logins the script compares. -/
def lowerChar (c : Char) : Char :=
  if 'A' ≤ c && c ≤ 'Z' then Char.ofNat (c.toNat + 32) else c

/-- Python `s.lower()` on ASCII strings. -/
def toLowerStr (s : String) : String :=
  ⟨s.data.map lowerChar⟩

/-- Python `s.strip()`: drop leading and trailing whitespace. -/
def stripStr (s : String) : String :=
  ⟨(((s.data.dropWhile Char.isWhitespace).reverse).dropWhile Char.isWhitespace).reverse⟩

/-- Whether `hay` starts with `needle` (over character lists). -/
def leadsWith : List Char → List Char → Bool
  | [], _ => true
  | _ :: _, [] => false
  | a :: as, b :: bs => a == b && leadsWith as bs

/-- Whether `needle` occurs as a contiguous substring of `hay`, modelling
Python's `needle in hay` on strings. -/
def hasSubstr (needle : List Char) : List Char → Bool
  | [] => leadsWith needle []
  | c :: t => leadsWith needle (c :: t) || hasSubstr needle t

/-- Python `needle in hay` for the strings used by the script. -/
def strContains (hay needle : String) : Bool :=
  hasSubstr needle.data hay.data

/-- `label_names` from the source: the list of label name strings. -/
def label_names (issue : SearchResult) : List String :=
  issue.labels

/-- The generator test `any("priority:pK" in l or l == "pK" for l in
labels_lower)` shared by `get_priority_score` and `get_priority_label`,
with `p` one of `"p0"`, `"p1"`, `"p2"`. -/
def scoreCond (issue : SearchResult) (p : String) : Bool :=
  ((label_names issue).map toLowerStr).any
    (fun l => strContains l ("priority:" ++ p) || l == p)

/-- `get_priority_score` from the source: lower-case every label, then
return 0 on a `priority:p0` substring or exact `p0` match, else 1 / 2 by
the analogous `p1` / `p2` rules, else 3. -/
def get_priority_score (issue : SearchResult) : Nat :=
  if scoreCond issue "p0" then 0
  else if scoreCond issue "p1" then 1
  else if scoreCond issue "p2" then 2
  else 3

/-- `get_priority_label` from the source: same conditions as
`get_priority_score`, returning the display string. -/
def get_priority_label (issue : SearchResult) : String :=
  if scoreCond issue "p0" then "P0"
  else if scoreCond issue "p1" then "P1"
  else if scoreCond issue "p2" then "P2"
  else ""

/-- `to_lower_set` from the source; the Python `set` is modelled as a list
(only intersection-emptiness and membership are ever used, which do not
depend on duplicates or order). -/
def to_lower_set (items : List String) : List String :=
  items.map toLowerStr

/-- Nonemptiness of the intersection of two lists viewed as sets,
modelling Python's truthiness test on `a & b`. -/
def interNonempty (a b : List String) : Bool :=
  a.any (fun x => b.contains x)

/-- `keep_issue` from the source: reject when `priority_labels` is nonempty
and misses the lower-cased label set, when an excluded label is present, or
when an excluded assignee (lower-cased login) is present; otherwise keep. -/
def keep_issue (issue : SearchResult) (priority_labels exclude_labels exclude_assignees : List String) : Bool :=
  let names_lower := to_lower_set (label_names issue)
  if !priority_labels.isEmpty && !interNonempty names_lower priority_labels then false
  else if !exclude_labels.isEmpty && interNonempty names_lower exclude_labels then false
  else
    let assignees := issue.assignees.map toLowerStr
    if !exclude_assignees.isEmpty && interNonempty assignees exclude_assignees then false
    else true

/-! ### Paginated fetcher (`fetch_issues`)

The accumulator `results = {}` is a Python 3.7+ `dict`: insertion-ordered
and unique-keyed, where `results[k] = v` replaces the value at an existing
key in place (keeping its position) and otherwise appends.  The endpoint
parameter stands for `requests.get(...).json()["items"]`: the items of one
page of one query.  The unbounded `while True` loop takes a fuel
parameter; exhausted fuel returns the accumulator built so far. -/

/-- `per_page = 50` from the source. -/
def per_page : Nat := 50

/-- `results[item["html_url"]] = item` on the insertion-ordered dict:
replace the value at an existing key keeping its position, else append. -/
def insertItem : List (String × SearchResult) → SearchResult → List (String × SearchResult)
  | [], item => [(item.html_url, item)]
  | p :: rest, item =>
    if p.1 == item.html_url then (p.1, item) :: rest
    else p :: insertItem rest item

/-- The inner `for item in data["items"]` loop: insert each item, breaking
as soon as the accumulator size has reached `limit`. -/
def mergePage (limit : Nat) (acc : List (String × SearchResult)) : List SearchResult → List (String × SearchResult)
  | [] => acc
  | item :: rest =>
    let acc2 := insertItem acc item
    if limit ≤ acc2.length then acc2 else mergePage limit acc2 rest

/-- The `while True` pagination loop for one query.  Alongside the
accumulator it threads a log of issued page requests, each recorded as
(query, page, accumulator size at request time).  The loop breaks once the
accumulator size reaches `limit`, and breaks when a page returns fewer
than `per_page` items. -/
def fetchQuery (endpoint : String → Nat → List SearchResult) (limit : Nat) (q : String) :
    Nat → Nat → List (String × SearchResult) → List (String × Nat × Nat) →
    List (String × SearchResult) × List (String × Nat × Nat)
  | 0, _, acc, log => (acc, log)
  | fuel + 1, page, acc, log =>
    let data := endpoint q page
    let log2 := log ++ [(q, page, acc.length)]
    let acc2 := mergePage limit acc data
    if limit ≤ acc2.length then (acc2, log2)
    else if data.length < per_page then (acc2, log2)
    else fetchQuery endpoint limit q fuel (page + 1) acc2 log2

/-- The outer `for q in queries` loop: strip each query, skip blank ones,
paginate the rest from page 1, and break once the accumulator size has
reached `limit`. -/
def fetchQueries (endpoint : String → Nat → List SearchResult) (limit fuel : Nat) :
    List String → List (String × SearchResult) → List (String × Nat × Nat) →
    List (String × SearchResult) × List (String × Nat × Nat)
  | [], acc, log => (acc, log)
  | q :: qs, acc, log =>
    let qt := stripStr q
    if qt = "" then fetchQueries endpoint limit fuel qs acc log
    else
      let r := fetchQuery endpoint limit qt fuel 1 acc log
      if limit ≤ r.1.length then r
      else fetchQueries endpoint limit fuel qs r.1 r.2

/-- `fetch_issues` from the source: run all queries against an empty
accumulator and return `list(results.values())`. -/
def fetch_issues (endpoint : String → Nat → List SearchResult) (queries : List String) (limit fuel : Nat) : List SearchResult :=
  ((fetchQueries endpoint limit fuel queries [] []).1).map Prod.snd

/-- The request log of a run (same traversal as `fetch_issues`). -/
def fetchLog (endpoint : String → Nat → List SearchResult) (queries : List String) (limit fuel : Nat) : List (String × Nat × Nat) :=
  (fetchQueries endpoint limit fuel queries [] []).2

/-- `results[k]` on the accumulator: the value stored at key `k`. -/
def lookupAcc (acc : List (String × SearchResult)) (k : String) : Option SearchResult :=
  match acc.find? (fun p => p.1 == k) with
  | some p => some p.2
  | none => none

/-! ### Post-fetch filtering in `main` -/

/-- The `main` list comprehension for issues: keep fetched items that do
not carry the pull-request marker and pass `keep_issue`. -/
def filtered_issues (items : List SearchResult) (pl el ea : List String) : List SearchResult :=
  items.filter (fun it => !it.pull_request && keep_issue it pl el ea)

/-- The `main` list comprehension for PRs: keep fetched items that carry
the pull-request marker and pass `keep_issue`. -/
def filtered_prs (items : List SearchResult) (pl el ea : List String) : List SearchResult :=
  items.filter (fun it => it.pull_request && keep_issue it pl el ea)

/-! ### Timestamps and the `sort_key` ranking -/

/-- The numeric value of an ASCII digit. -/
def digitVal? (c : Char) : Option Nat :=
  if '0' ≤ c && c ≤ '9' then some (c.toNat - 48) else none

/-- Read a list of ASCII digits as a natural number. -/
def natOfDigits? (cs : List Char) : Option Nat :=
  cs.foldl
    (fun acc c =>
      match acc, digitVal? c with
      | some n, some d => some (n * 10 + d)
      | _, _ => none)
    (some 0)

/-- Days from 1970-01-01 of the civil date y-m-d (proleptic Gregorian). -/
def daysFromCivil (y m d : Int) : Int :=
  let y2 := if m ≤ 2 then y - 1 else y
  let era := Int.ediv y2 400
  let yoe := y2 - era * 400
  let mp := Int.emod (m + 9) 12
  let doy := Int.ediv (153 * mp + 2) 5 + d - 1
  let doe := yoe * 365 + Int.ediv yoe 4 - Int.ediv yoe 100 + doy
  era * 146097 + doe - 719468

/-- Model of `int(dateutil.parser.parse(timestamp).timestamp())`,
restricted to the RFC 3339 form `YYYY-MM-DDThh:mm:ssZ` that the GitHub
API returns for `updated_at` (and that the script's own default string
uses): any string outside this form is treated as unparsable, matching
the `except` path of `sort_key`. -/
def parseTimestamp (s : String) : Option Int :=
  match s.data with
  | [y1, y2, y3, y4, sep1, mo1, mo2, sep2, d1, d2, tsep, h1, h2, col1, mi1, mi2, col2, se1, se2, zc] =>
    if sep1 = '-' && sep2 = '-' && tsep = 'T' && col1 = ':' && col2 = ':' && zc = 'Z' then
      match natOfDigits? [y1, y2, y3, y4], natOfDigits? [mo1, mo2], natOfDigits? [d1, d2],
          natOfDigits? [h1, h2], natOfDigits? [mi1, mi2], natOfDigits? [se1, se2] with
      | some y, some mo, some d, some h, some mi, some se =>
        if 1 ≤ mo && mo ≤ 12 && 1 ≤ d && d ≤ 31 && h ≤ 23 && mi ≤ 59 && se ≤ 59 then
          some (daysFromCivil (Int.ofNat y) (Int.ofNat mo) (Int.ofNat d) * 86400
            + Int.ofNat (h * 3600 + mi * 60 + se))
        else none
      | _, _, _, _, _, _ => none
    else none
  | _ => none

/-- The fallback string `x.get("updated_at", "2025-01-01T00:00:00Z")`
substituted when the `updated_at` field is absent. -/
def default_updated : String := "2025-01-01T00:00:00Z"

/-- `sort_key` from `main`: the pair (priority score, negated parsed
timestamp), with second component 0 when parsing raises. -/
def sort_key (x : SearchResult) : Nat × Int :=
  let timestamp := x.updated_at.getD default_updated
  match parseTimestamp timestamp with
  | some t => (get_priority_score x, -t)
  | none => (get_priority_score x, 0)

/-- Python's lexicographic tuple comparison on sort keys. -/
def keyLe (a b : Nat × Int) : Prop :=
  a.1 < b.1 ∨ (a.1 = b.1 ∧ a.2 ≤ b.2)

instance (a b : Nat × Int) : Decidable (keyLe a b) := by
  unfold keyLe
  infer_instance

/-- The ordering used by `all_items.sort(key=sort_key)`. -/
def itemLe (a b : SearchResult) : Prop :=
  keyLe (sort_key a) (sort_key b)

instance : DecidableRel itemLe := by
  unfold itemLe
  infer_instance

/-- `all_items.sort(key=sort_key)`: Python's sort is a stable sort by the
key, and a stable sort by a total preorder has a unique output, so
insertion sort (stable) is an exact model. -/
def sort_items (items : List SearchResult) : List SearchResult :=
  items.insertionSort itemLe

instance : IsTotal SearchResult itemLe :=
  ⟨fun a b => by
    unfold itemLe keyLe
    omega⟩

instance : IsTrans SearchResult itemLe :=
  ⟨fun a b c hab hbc => by
    unfold itemLe keyLe at hab hbc ⊢
    omega⟩

/-! ### Spec-side predicates (for stating claims) -/

/-- Spec-side predicate: some label of the issue, lower-cased, equals `p`
or contains `"priority:" ++ p` as a substring. -/
def tierLabelled (issue : SearchResult) (p : String) : Prop :=
  ∃ l ∈ label_names issue, toLowerStr l = p ∨ strContains (toLowerStr l) ("priority:" ++ p) = true

instance (issue : SearchResult) (p : String) : Decidable (tierLabelled issue p) := by
  unfold tierLabelled
  infer_instance

/-- Spec-side predicate: the two string collections intersect after
case-insensitive normalisation of both sides. -/
def ciIntersects (xs ys : List String) : Prop :=
  ∃ x ∈ xs, ∃ y ∈ ys, toLowerStr x = toLowerStr y

instance (xs ys : List String) : Decidable (ciIntersects xs ys) := by
  unfold ciIntersects
  infer_instance

/-! ### Concrete fixtures for counterexamples and witnesses -/

/-- Duplicate-identity fixture: first-seen copy. -/
def itemDupA : SearchResult :=
  ⟨"https://e.x/u", "first copy", [], [], none, false⟩

/-- Duplicate-identity fixture: second copy, same identity, different title. -/
def itemDupB : SearchResult :=
  ⟨"https://e.x/u", "second copy", [], [], none, false⟩

/-- Endpoint returning the two duplicate-identity copies on page 1 of `q1`. -/
def epDup : String → Nat → List SearchResult :=
  fun q page => if q = "q1" ∧ page = 1 then [itemDupA, itemDupB] else []

/-- A pull request, for the kind-filtering fixture. -/
def itemPRx : SearchResult :=
  ⟨"https://e.x/pr1", "a pull request", [], [], none, true⟩

/-- An issue, for the kind-filtering fixture. -/
def itemIssueX : SearchResult :=
  ⟨"https://e.x/i1", "an issue", [], [], none, false⟩

/-- Endpoint for an issues-only query whose page 1 starts with a PR. -/
def epKind : String → Nat → List SearchResult :=
  fun q page => if q = "is:issue" ∧ page = 1 then [itemPRx, itemIssueX] else []

/-- An item whose `updated_at` field is absent. -/
def itemAbsentTs : SearchResult :=
  ⟨"https://e.x/t1", "absent ts", [], [], none, false⟩

/-- An item updated mid-2024. -/
def item2024 : SearchResult :=
  ⟨"https://e.x/t2", "mid 2024", [], [], some "2024-06-01T00:00:00Z", false⟩

/-- An item with an unparsable `updated_at`. -/
def itemGarbage : SearchResult :=
  ⟨"https://e.x/t3", "bad ts", [], [], some "not a timestamp", false⟩

/-- An item updated before the Unix epoch. -/
def item1950 : SearchResult :=
  ⟨"https://e.x/t4", "pre epoch", [], [], some "1950-01-01T00:00:00Z", false⟩

/-- Tie fixture: same (absent) priority and same timestamp as `itemTieB`. -/
def itemTieA : SearchResult :=
  ⟨"https://e.x/w1", "tie a", [], [], some "2024-06-01T00:00:00Z", false⟩

/-- Tie fixture: same (absent) priority and same timestamp as `itemTieA`. -/
def itemTieB : SearchResult :=
  ⟨"https://e.x/w2", "tie b", [], [], some "2024-06-01T00:00:00Z", false⟩

/-! ### Helper lemmas -/

theorem ite_chain_eq_true_iff (c1 c2 c3 : Bool) :
    ((if c1 then false else if c2 then false else if c3 then false else true) = true) ↔
      (c1 = false ∧ c2 = false ∧ c3 = false) := by
  cases c1 <;> cases c2 <;> cases c3 <;> simp

theorem interNonempty_lower_iff (xs ys : List String) :
    interNonempty (xs.map toLowerStr) (ys.map toLowerStr) = true ↔ ciIntersects xs ys := by
  simp only [interNonempty, ciIntersects, List.any_eq_true, List.mem_map, List.contains,
    List.elem_eq_mem, decide_eq_true_eq]
  constructor
  · rintro ⟨l, ⟨x, hx, rfl⟩, y, hy, h⟩
    exact ⟨x, hx, y, hy, h.symm⟩
  · rintro ⟨x, hx, y, hy, h⟩
    exact ⟨toLowerStr x, ⟨x, hx, rfl⟩, y, hy, h.symm⟩

theorem scoreCond_iff (issue : SearchResult) (p : String) :
    scoreCond issue p = true ↔ tierLabelled issue p := by
  simp only [scoreCond, tierLabelled, List.any_eq_true, List.mem_map, Bool.or_eq_true,
    beq_iff_eq]
  constructor
  · rintro ⟨l, ⟨x, hx, rfl⟩, h⟩
    exact ⟨x, hx, h.symm.imp id id⟩
  · rintro ⟨x, hx, h⟩
    exact ⟨toLowerStr x, ⟨x, hx, rfl⟩, h.symm.imp id id⟩

theorem length_insertItem_le (acc : List (String × SearchResult)) (item : SearchResult) :
    acc.length ≤ (insertItem acc item).length ∧
      (insertItem acc item).length ≤ acc.length + 1 := by
  induction acc with
  | nil => simp [insertItem]
  | cons p rest ih =>
    simp only [insertItem]
    split
    · simp
    · simpa using And.intro (Nat.succ_le_succ ih.1) (Nat.succ_le_succ ih.2)

theorem mem_keys_insertItem (acc : List (String × SearchResult)) (item : SearchResult) (k : String) :
    k ∈ (insertItem acc item).map Prod.fst ↔
      k ∈ acc.map Prod.fst ∨ k = item.html_url := by
  induction acc with
  | nil => simp [insertItem, eq_comm]
  | cons p rest ih =>
    simp only [insertItem]
    split
    · next heq =>
      have hp : p.1 = item.html_url := by simpa using heq
      simp only [List.map_cons]
      constructor
      · intro h
        exact Or.inl h
      · rintro (h | h)
        · exact h
        · simp [h, hp]
    · simp only [List.map_cons, List.mem_cons, ih]
      tauto

theorem nodup_keys_insertItem (acc : List (String × SearchResult)) (item : SearchResult)
    (h : (acc.map Prod.fst).Nodup) :
    ((insertItem acc item).map Prod.fst).Nodup := by
  induction acc with
  | nil => simp [insertItem]
  | cons p rest ih =>
    simp only [List.map_cons, List.nodup_cons] at h
    simp only [insertItem]
    split
    · next heq =>
      simpa [List.nodup_cons] using h
    · next heq =>
      have hne : p.1 ≠ item.html_url := by simpa using heq
      simp only [List.map_cons, List.nodup_cons]
      refine ⟨?_, ih h.2⟩
      rw [mem_keys_insertItem]
      rintro (hmem | hmem)
      · exact h.1 hmem
      · exact hne hmem

theorem lookupAcc_insertItem (acc : List (String × SearchResult)) (item : SearchResult) (k : String) :
    lookupAcc (insertItem acc item) k =
      if k = item.html_url then some item else lookupAcc acc k := by
  induction acc with
  | nil =>
    simp only [insertItem, lookupAcc, List.find?]
    by_cases hk : k = item.html_url
    · simp [hk]
    · have hf : (item.html_url == k) = false := by
        simp [Ne.symm hk]
      simp [hk, hf]
  | cons p rest ih =>
    simp only [insertItem]
    split
    · next heq =>
      have hp : p.1 = item.html_url := by simpa using heq
      by_cases hk : k = item.html_url
      · simp [lookupAcc, List.find?, hp, hk]
      · have hpk : (p.1 == k) = false := by simp [hp, Ne.symm hk]
        simp [lookupAcc, List.find?, hpk, hk]
    · next heq =>
      have hne : p.1 ≠ item.html_url := by simpa using heq
      by_cases hpk : p.1 = k
      · have hk : k ≠ item.html_url := by
          rw [← hpk]; exact hne
        simp [lookupAcc, List.find?, hpk, hk]
      · have hpk' : (p.1 == k) = false := by simp [hpk]
        simp only [lookupAcc, List.find?, hpk'] at ih ⊢
        exact ih

theorem nodup_keys_mergePage (limit : Nat) (items : List SearchResult) :
    ∀ acc : List (String × SearchResult), (acc.map Prod.fst).Nodup →
      ((mergePage limit acc items).map Prod.fst).Nodup := by
  induction items with
  | nil =>
    intro acc h
    simpa [mergePage] using h
  | cons item rest ih =>
    intro acc h
    simp only [mergePage]
    split
    · exact nodup_keys_insertItem acc item h
    · exact ih _ (nodup_keys_insertItem acc item h)

theorem length_mergePage_le (limit : Nat) (items : List SearchResult) :
    ∀ acc : List (String × SearchResult), acc.length < limit →
      (mergePage limit acc items).length ≤ limit := by
  induction items with
  | nil =>
    intro acc h
    simp only [mergePage]
    omega
  | cons item rest ih =>
    intro acc h
    have hb := length_insertItem_le acc item
    simp only [mergePage]
    split
    · omega
    · next hsp =>
      exact ih _ (by omega)

theorem nodup_keys_fetchQuery (ep : String → Nat → List SearchResult) (limit : Nat) (q : String) :
    ∀ (fuel page : Nat) (acc : List (String × SearchResult)) (log : List (String × Nat × Nat)),
      (acc.map Prod.fst).Nodup →
      (((fetchQuery ep limit q fuel page acc log).1.map Prod.fst).Nodup) := by
  intro fuel
  induction fuel with
  | zero =>
    intro page acc log h
    simpa [fetchQuery] using h
  | succ n ih =>
    intro page acc log h
    simp only [fetchQuery]
    split
    · exact nodup_keys_mergePage limit _ acc h
    · split
      · exact nodup_keys_mergePage limit _ acc h
      · exact ih _ _ _ (nodup_keys_mergePage limit _ acc h)

theorem nodup_keys_fetchQueries (ep : String → Nat → List SearchResult) (limit fuel : Nat) :
    ∀ (qs : List String) (acc : List (String × SearchResult)) (log : List (String × Nat × Nat)),
      (acc.map Prod.fst).Nodup →
      (((fetchQueries ep limit fuel qs acc log).1.map Prod.fst).Nodup) := by
  intro qs
  induction qs with
  | nil =>
    intro acc log h
    simpa [fetchQueries] using h
  | cons q rest ih =>
    intro acc log h
    simp only [fetchQueries]
    split
    · exact ih _ _ h
    · split
      · exact nodup_keys_fetchQuery ep limit _ fuel 1 acc log h
      · exact ih _ _ (nodup_keys_fetchQuery ep limit _ fuel 1 acc log h)

theorem fetchQuery_le (ep : String → Nat → List SearchResult) (limit : Nat) (q : String) :
    ∀ (fuel page : Nat) (acc : List (String × SearchResult)) (log : List (String × Nat × Nat)),
      acc.length < limit → (∀ e ∈ log, e.2.2 < limit) →
      (fetchQuery ep limit q fuel page acc log).1.length ≤ limit ∧
        (∀ e ∈ (fetchQuery ep limit q fuel page acc log).2, e.2.2 < limit) := by
  intro fuel
  induction fuel with
  | zero =>
    intro page acc log ha hl
    exact ⟨Nat.le_of_lt ha, hl⟩
  | succ n ih =>
    intro page acc log ha hl
    have hm := length_mergePage_le limit (ep q page) acc ha
    have hlog : ∀ e ∈ log ++ [(q, page, acc.length)], e.2.2 < limit := by
      intro e he
      rcases List.mem_append.1 he with h | h
      · exact hl e h
      · simp only [List.mem_singleton] at h
        subst h
        exact ha
    simp only [fetchQuery]
    split
    · exact ⟨hm, hlog⟩
    · next hno =>
      split
      · exact ⟨hm, hlog⟩
      · exact ih _ _ _ (Nat.lt_of_not_le hno) hlog

theorem fetchQueries_le (ep : String → Nat → List SearchResult) (limit fuel : Nat) :
    ∀ (qs : List String) (acc : List (String × SearchResult)) (log : List (String × Nat × Nat)),
      acc.length < limit → (∀ e ∈ log, e.2.2 < limit) →
      (fetchQueries ep limit fuel qs acc log).1.length ≤ limit ∧
        (∀ e ∈ (fetchQueries ep limit fuel qs acc log).2, e.2.2 < limit) := by
  intro qs
  induction qs with
  | nil =>
    intro acc log ha hl
    exact ⟨Nat.le_of_lt ha, hl⟩
  | cons q rest ih =>
    intro acc log ha hl
    have hq := fetchQuery_le ep limit (stripStr q) fuel 1 acc log ha hl
    simp only [fetchQueries]
    split
    · exact ih _ _ ha hl
    · split
      · exact hq
      · next hno =>
        exact ih _ _ (Nat.lt_of_not_le hno) hq.2

/-! ### Claim theorems -/

/-- C1 (amended): in every run the accumulator maps each identity
(`html_url`) to exactly one entry — its keys are globally unique across
all queries — but on a duplicate identity the retained entry is the
most recently seen copy, stored at the first occurrence's position:
inserting an item makes its key map to that (last-seen) item and leaves
every other key unchanged. -/
theorem c1_accumulator_unique_last_wins :
    ∀ (ep : String → Nat → List SearchResult) (qs : List String) (limit fuel : Nat),
      (((fetchQueries ep limit fuel qs [] []).1.map Prod.fst).Nodup) ∧
      ∀ (acc : List (String × SearchResult)) (item : SearchResult) (k : String),
        lookupAcc (insertItem acc item) k =
          if k = item.html_url then some item else lookupAcc acc k :=
  fun ep qs limit fuel =>
    ⟨nodup_keys_fetchQueries ep limit fuel qs [] [] (by simp),
     fun acc item k => lookupAcc_insertItem acc item k⟩

/-- C1 counterexample: page 1 of query `q1` returns two distinct copies
with the same identity; the fetched accumulator retains the second copy,
not the first-seen one as the claim states. -/
theorem c1_counterexample :
    epDup "q1" 1 = [itemDupA, itemDupB] ∧
    itemDupA.html_url = itemDupB.html_url ∧
    itemDupA ≠ itemDupB ∧
    fetch_issues epDup ["q1"] 10 3 = [itemDupB] := by
  decide

/-- C4 (amended): for every limit N ≥ 1, the fetcher returns at most N
accumulated entries, and every page request in the run's log was issued
while the accumulator size was still strictly below N — so once the
accumulator reaches N no further page request is issued, even mid-query.
(For N = 0 the claim fails; see the counterexample.) -/
theorem c4_limit_enforced (ep : String → Nat → List SearchResult)
    (qs : List String) (fuel : Nat) (limit : Nat) (h : 1 ≤ limit) :
    (fetch_issues ep qs limit fuel).length ≤ limit ∧
    ∀ e ∈ fetchLog ep qs limit fuel, e.2.2 < limit := by
  have hrun := fetchQueries_le ep limit fuel qs [] []
    (by simpa using h) (by simp)
  constructor
  · simpa [fetch_issues] using hrun.1
  · simpa [fetchLog] using hrun.2

theorem c4_limit_enforced_witness :
    (fetch_issues epDup ["q1"] 1 3).length ≤ 1 ∧
    ∀ e ∈ fetchLog epDup ["q1"] 1 3, e.2.2 < 1 :=
  c4_limit_enforced epDup ["q1"] 3 1 (by decide)

/-- C4 counterexample: with limit N = 0, the accumulator has already
reached size N before any request, yet a page request is issued (logged
at accumulator size 0) and the fetcher returns 1 > 0 entries. -/
theorem c4_counterexample :
    (fetch_issues epDup ["q1"] 0 3).length = 1 ∧
    fetchLog epDup ["q1"] 0 3 = [("q1", 1, 0)] := by
  decide

/-- C5: a page with fewer items than the requested page size ends
pagination for that query immediately: the loop returns right after
merging that page, having logged only that one request — with no
assumption on the global limit or on whether the accumulator grew. -/
theorem c5_short_page_stops (ep : String → Nat → List SearchResult)
    (limit : Nat) (q : String) (fuel page : Nat)
    (acc : List (String × SearchResult)) (log : List (String × Nat × Nat))
    (h : (ep q page).length < per_page) :
    fetchQuery ep limit q (fuel + 1) page acc log =
      (mergePage limit acc (ep q page), log ++ [(q, page, acc.length)]) := by
  simp only [fetchQuery]
  split
  · rfl
  · simp [h]

theorem c5_short_page_stops_witness :
    (epDup "q1" 1).length < per_page ∧
    fetchQuery epDup 10 "q1" 3 1 [] [] =
      (mergePage 10 [] (epDup "q1" 1), [] ++ [("q1", 1, (0 : Nat))]) :=
  ⟨by decide, c5_short_page_stops epDup 10 "q1" 2 1 [] [] (by decide)⟩

/-- C10: a query that strips to the empty string is skipped without
error: the fetch proceeds to the remaining queries with the accumulator
and request log unchanged, so no page request is issued for it. -/
theorem c10_blank_query_skipped (ep : String → Nat → List SearchResult)
    (limit fuel : Nat) (q : String) (qs : List String)
    (acc : List (String × SearchResult)) (log : List (String × Nat × Nat))
    (h : stripStr q = "") :
    fetchQueries ep limit fuel (q :: qs) acc log =
      fetchQueries ep limit fuel qs acc log := by
  simp only [fetchQueries]
  rw [if_pos h]

theorem c10_blank_query_skipped_witness :
    stripStr "   " = "" ∧
    fetchQueries epDup 10 3 ["   ", "q1"] [] [] = fetchQueries epDup 10 3 ["q1"] [] [] :=
  ⟨by decide, c10_blank_query_skipped epDup 10 3 "   " ["q1"] [] [] (by decide)⟩

/-- C6: priority classification is total and deterministic.  `get_priority_score`
maps every result to exactly one of {0, 1, 2, 3} (standing for P0, P1, P2,
None), returning 0 exactly when some lower-cased label equals `"p0"` or
contains `"priority:p0"`, then 1 and 2 by the analogous rules checked in
that fixed order with the first match winning, and 3 when no rule matches;
in particular a result carrying both a `"priority:p0"`-style label and a
`"p1"` label scores 0. -/
theorem c6_priority_classification_total (issue : SearchResult) :
    (get_priority_score issue = 0 ∨ get_priority_score issue = 1 ∨
     get_priority_score issue = 2 ∨ get_priority_score issue = 3) ∧
    (get_priority_score issue = 0 ↔ tierLabelled issue "p0") ∧
    (get_priority_score issue = 1 ↔
      ¬ tierLabelled issue "p0" ∧ tierLabelled issue "p1") ∧
    (get_priority_score issue = 2 ↔
      ¬ tierLabelled issue "p0" ∧ ¬ tierLabelled issue "p1" ∧ tierLabelled issue "p2") ∧
    (get_priority_score issue = 3 ↔
      ¬ tierLabelled issue "p0" ∧ ¬ tierLabelled issue "p1" ∧ ¬ tierLabelled issue "p2") := by
  cases h0 : scoreCond issue "p0" <;> cases h1 : scoreCond issue "p1" <;>
    cases h2 : scoreCond issue "p2" <;>
      simp [get_priority_score, h0, h1, h2, ← scoreCond_iff]

/-- C9: the numeric priority score and the display priority label agree
pointwise: score 0 exactly when the label is "P0", 1 exactly when "P1",
2 exactly when "P2", and 3 exactly when the label is the empty string. -/
theorem c9_score_label_agree (issue : SearchResult) :
    (get_priority_score issue = 0 ↔ get_priority_label issue = "P0") ∧
    (get_priority_score issue = 1 ↔ get_priority_label issue = "P1") ∧
    (get_priority_score issue = 2 ↔ get_priority_label issue = "P2") ∧
    (get_priority_score issue = 3 ↔ get_priority_label issue = "") := by
  cases h0 : scoreCond issue "p0" <;> cases h1 : scoreCond issue "p1" <;>
    cases h2 : scoreCond issue "p2" <;>
      simp [get_priority_score, get_priority_label, h0, h1, h2]

/-- C7: inclusion is a pure boolean function; with the policy sets
lower-cased as `main` does, `keep_issue` keeps a result iff (1) when
`priorityLabels` is nonempty the labels intersect it, (2) the labels do not
intersect `excludeLabels`, and (3) the assignees do not intersect
`excludeAssignees` — all matching case-insensitive on both sides, checked
in that fixed order with the first failing check rejecting. -/
theorem c7_keep_issue_iff (issue : SearchResult) (pl el ea : List String) :
    keep_issue issue (to_lower_set pl) (to_lower_set el) (to_lower_set ea) = true ↔
      ((pl ≠ [] → ciIntersects (label_names issue) pl) ∧
       ¬ ciIntersects (label_names issue) el ∧
       ¬ ciIntersects issue.assignees ea) := by
  simp only [keep_issue, to_lower_set]
  rw [ite_chain_eq_true_iff]
  refine and_congr ?_ (and_congr ?_ ?_)
  · by_cases hp : pl = []
    · subst hp
      simp [interNonempty, ciIntersects]
    · have hne : (pl.map toLowerStr).isEmpty = false := by
        simp [List.isEmpty_iff, hp]
      simp [hne, hp, Bool.not_eq_false', interNonempty_lower_iff]
  · by_cases he : el = []
    · subst he
      simp [interNonempty, ciIntersects]
    · have hne : (el.map toLowerStr).isEmpty = false := by
        simp [List.isEmpty_iff, he]
      rw [← interNonempty_lower_iff (label_names issue) el]
      simp [hne]
  · by_cases ha : ea = []
    · subst ha
      simp [interNonempty, ciIntersects]
    · have hne : (ea.map toLowerStr).isEmpty = false := by
        simp [List.isEmpty_iff, ha]
      rw [← interNonempty_lower_iff issue.assignees ea]
      simp [hne]

/-- C2 (amended): results of the wrong kind are not discarded before
accumulation — `fetch_issues` merges issues and pull requests alike into
the accumulator, where they occupy slots and count toward the limit (see
the counterexample) — and are instead discarded only by `main`'s
post-fetch filtering: every item of the filtered issues list is a
non-pull-request that passed `keep_issue`, and dually for the PR list. -/
theorem c2_kind_filtered_after_fetch (ep : String → Nat → List SearchResult)
    (qs : List String) (limit fuel : Nat) (pl el ea : List String) :
    (∀ it ∈ filtered_issues (fetch_issues ep qs limit fuel) pl el ea,
       it.pull_request = false ∧ keep_issue it pl el ea = true ∧
         it ∈ fetch_issues ep qs limit fuel) ∧
    (∀ it ∈ filtered_prs (fetch_issues ep qs limit fuel) pl el ea,
       it.pull_request = true ∧ keep_issue it pl el ea = true ∧
         it ∈ fetch_issues ep qs limit fuel) := by
  constructor <;> intro it hit <;>
    simp only [filtered_issues, filtered_prs, List.mem_filter, Bool.and_eq_true,
      Bool.not_eq_true'] at hit <;>
    tauto

theorem c2_kind_filtered_after_fetch_witness :
    itemIssueX.pull_request = false ∧ keep_issue itemIssueX [] [] [] = true ∧
      itemIssueX ∈ fetch_issues epKind ["is:issue"] 2 3 :=
  (c2_kind_filtered_after_fetch epKind ["is:issue"] 2 3 [] [] []).1 itemIssueX (by decide)

/-- C2 counterexample: an issues-only query whose page starts with a pull
request.  With limit 1 the PR is merged into the accumulator first and
consumes the only slot, so the matching issue is never accumulated and the
post-fetch filter leaves nothing — contradicting the claim that a
wrong-kind item is discarded before accumulation and never occupies a slot
of the limit. -/
theorem c2_counterexample :
    epKind "is:issue" 1 = [itemPRx, itemIssueX] ∧
    itemPRx.pull_request = true ∧
    itemIssueX.pull_request = false ∧
    fetch_issues epKind ["is:issue"] 1 3 = [itemPRx] ∧
    filtered_issues (fetch_issues epKind ["is:issue"] 1 3) [] [] [] = [] := by
  decide

/-- C3 (amended): the sort never fails on an absent or unparsable
`updated_at`, but the fallbacks are not the oldest-possible timestamp: an
absent field is replaced by the literal `"2025-01-01T00:00:00Z"` (epoch
1735689600), and an unparsable one gets sort-key component 0 (the Unix
epoch), which sorts after every post-1970 parsable timestamp in its tier
but before pre-1970 ones. -/
theorem c3_timestamp_fallbacks :
    parseTimestamp default_updated = some 1735689600 ∧
    (∀ x : SearchResult, x.updated_at = none →
      sort_key x = (get_priority_score x, -(1735689600 : Int))) ∧
    (∀ (x : SearchResult) (s : String), x.updated_at = some s →
      parseTimestamp s = none → sort_key x = (get_priority_score x, 0)) ∧
    (∀ (x y : SearchResult) (s s2 : String) (t : Int),
      x.updated_at = some s → parseTimestamp s = none →
      y.updated_at = some s2 → parseTimestamp s2 = some t → 0 < t →
      get_priority_score x = get_priority_score y →
      itemLe y x ∧ ¬ itemLe x y) := by
  have hdef : parseTimestamp default_updated = some 1735689600 := by decide
  refine ⟨hdef, ?_, ?_, ?_⟩
  · intro x hx
    simp [sort_key, hx, hdef]
  · intro x s hx hs
    simp [sort_key, hx, hs]
  · intro x y s s2 t hx hs hy ht hpos hscore
    have hkx : sort_key x = (get_priority_score x, 0) := by
      simp [sort_key, hx, hs]
    have hky : sort_key y = (get_priority_score y, -t) := by
      simp [sort_key, hy, ht]
    unfold itemLe
    rw [hkx, hky]
    unfold keyLe
    show (get_priority_score y < get_priority_score x ∨
        (get_priority_score y = get_priority_score x ∧ -t ≤ 0)) ∧
      ¬(get_priority_score x < get_priority_score y ∨
        (get_priority_score x = get_priority_score y ∧ 0 ≤ -t))
    omega

theorem c3_timestamp_fallbacks_witness :
    itemLe item2024 itemGarbage ∧ ¬ itemLe itemGarbage item2024 :=
  c3_timestamp_fallbacks.2.2.2 itemGarbage item2024 "not a timestamp"
    "2024-06-01T00:00:00Z" 1717200000 (by decide) (by decide) (by decide)
    (by decide) (by decide) (by decide)

/-- C3 counterexample: `itemAbsentTs` (absent `updated_at`) and `item2024`
(updated June 2024) share a tier, yet the absent-timestamp item sorts
first — the claim says it is treated as oldest-possible and sorts after
every parsable one; likewise `itemGarbage` (unparsable) sorts before
`item1950`, a parsable pre-epoch timestamp in the same tier. -/
theorem c3_counterexample :
    get_priority_score itemAbsentTs = get_priority_score item2024 ∧
    itemAbsentTs.updated_at = none ∧
    sort_items [item2024, itemAbsentTs] = [itemAbsentTs, item2024] ∧
    get_priority_score itemGarbage = get_priority_score item1950 ∧
    parseTimestamp "not a timestamp" = none ∧
    parseTimestamp "1950-01-01T00:00:00Z" = some (-631152000) ∧
    sort_items [item1950, itemGarbage] = [itemGarbage, item1950] := by
  decide

/-- C8: `sort_items` returns a permutation of its input sorted by the
composite key (priority tier ascending, then parsed `updated_at`
descending via the negated timestamp); two results with identical tier
and identical `updated_at` field keep their relative input (first-seen)
order; and among equal-tier results with parsable timestamps a strictly
newer one never follows an older one. -/
theorem c8_rank_order (items : List SearchResult) :
    (sort_items items).Perm items ∧
    List.Sorted itemLe (sort_items items) ∧
    (∀ a b : SearchResult, get_priority_score a = get_priority_score b →
       a.updated_at = b.updated_at →
       [a, b].Sublist items → [a, b].Sublist (sort_items items)) ∧
    (∀ (a b : SearchResult) (ta tb : Int),
       get_priority_score a = get_priority_score b →
       parseTimestamp (a.updated_at.getD default_updated) = some ta →
       parseTimestamp (b.updated_at.getD default_updated) = some tb →
       tb < ta → ¬ [b, a].Sublist (sort_items items)) := by
  have hsorted : List.Sorted itemLe (sort_items items) :=
    List.sorted_insertionSort itemLe items
  refine ⟨List.perm_insertionSort itemLe items, hsorted, ?_, ?_⟩
  · intro a b hscore hupd hsub
    have hkey : sort_key a = sort_key b := by
      unfold sort_key
      rw [hupd, hscore]
    have hab : itemLe a b := by
      unfold itemLe
      rw [hkey]
      exact Or.inr ⟨rfl, le_refl _⟩
    exact List.pair_sublist_insertionSort hab hsub
  · intro a b ta tb hscore hta htb htlt hsub
    have hba : itemLe b a := List.pairwise_pair.mp (List.Pairwise.sublist hsub hsorted)
    have hka : sort_key a = (get_priority_score a, -ta) := by
      simp [sort_key, hta]
    have hkb : sort_key b = (get_priority_score b, -tb) := by
      simp [sort_key, htb]
    unfold itemLe at hba
    rw [hka, hkb] at hba
    unfold keyLe at hba
    simp only [hscore] at hba
    omega

theorem c8_rank_order_witness :
    [itemTieA, itemTieB].Sublist (sort_items [itemTieA, itemTieB]) :=
  (c8_rank_order [itemTieA, itemTieB]).2.2.1 itemTieA itemTieB
    (by decide) (by decide) (by decide)

end Digest
